/-
Verification of the natural-language specification of the `cni-plugins`
suite (CNI plugins in Rust) against a shallow embedding of its source.

The embedding translates the relevant Rust code into Lean definitions:
- `src/plugin/src/ip_range.rs` (IpRange, iter_free)
- `src/plugin/src/version.rs` (version checking, VERSION reply)
- `src/plugin/src/cni.rs` (input loading)
- `src/plugin/src/error.rs` (CniError and its reply codes)
- `src/plugin/src/delegation.rs` (the delegation driver)
- `src/ipam-da-consul/src/{main,error,consul}.rs` (the consul allocator)
- `src/ipam-delegated/src/main.rs` (the chained ipam driver)
- `src/host-neigh/src/main.rs`, `src/host-routes/src/main.rs` (host mutators)
- `src/ipam-ds-nomad/src/main.rs` (the nomad selector)

External library behaviour used by the source (the `ipnetwork` crate's
subnet iteration, Rust std `IpAddr` ordering, the `semver` crate's
requirement matching) is modelled from the libraries' documented semantics;
I/O (HTTP responses, subprocess results) is passed in as explicit
parameters so the control flow around it can be stated purely.
-/

import Mathlib

namespace CniPlugins

/-! ## IP addresses and networks

Modelling `std::net::IpAddr` as a family tag plus the integer encoding of
the address, and `ipnetwork::IpNetwork` as an address plus prefix length.
-/

/-- The IP family of an address: v4 (32 bits) or v6 (128 bits). -/
inductive IpFamily
  | v4
  | v6
  deriving DecidableEq, Repr

/-- Bit width of addresses of a family. -/
def IpFamily.width : IpFamily → Nat
  | .v4 => 32
  | .v6 => 128

/-- An IP address: family tag plus integer encoding (big-endian numeric
value of the octets, as `u32`/`u128` in Rust). -/
structure IpAddr where
  fam : IpFamily
  addr : Nat
  deriving DecidableEq, Repr

/-- Rust's `Ord for IpAddr`: every v4 address sorts before every v6
address; within a family, addresses compare numerically (octet-lexicographic
equals numeric on the big-endian encoding). Boolean strict-less-than. -/
def IpAddr.ltb (a b : IpAddr) : Bool :=
  match a.fam, b.fam with
  | .v4, .v6 => true
  | .v6, .v4 => false
  | _, _ => decide (a.addr < b.addr)

/-- Convenience: the v4 address from four octets. -/
def v4 (a b c d : Nat) : IpAddr :=
  ⟨.v4, ((a * 256 + b) * 256 + c) * 256 + d⟩

/-- `ipnetwork::IpNetwork`: an address plus a prefix length. The crate
stores the address as given (it does not mask host bits). -/
structure IpNetwork where
  ip : IpAddr
  prefixLen : Nat
  deriving DecidableEq, Repr

namespace IpNetwork

/-- Number of host-bit combinations: 2^(width - prefix). -/
def size (n : IpNetwork) : Nat := 2 ^ (n.ip.fam.width - n.prefixLen)

/-- The network address: the stored address with host bits cleared
(`ip & mask` in the crate). -/
def network (n : IpNetwork) : Nat := n.ip.addr / n.size * n.size

/-- `IpNetwork::contains`: same family, and the address masked to the
prefix equals the masked network address. -/
def contains (n : IpNetwork) (a : IpAddr) : Bool :=
  n.ip.fam == a.fam && a.addr / n.size == n.ip.addr / n.size

/-- `IpNetwork::iter` from the `ipnetwork` crate: every address of the
subnet in ascending order, starting at the network address and ending at
the last (broadcast, for v4) address. -/
def iter (n : IpNetwork) : List IpAddr :=
  (List.range n.size).map fun i => ⟨n.ip.fam, n.network + i⟩

end IpNetwork

/-! ## IpRange and its free-IP iterator (`src/plugin/src/ip_range.rs`) -/

/-- `IpRange`: a subnet with optional inclusive `rangeStart`/`rangeEnd`
bounds and an optional gateway. -/
structure IpRange where
  subnet : IpNetwork
  range_start : Option IpAddr := none
  range_end : Option IpAddr := none
  gateway : Option IpAddr := none
  deriving DecidableEq, Repr

/-- The filter applied by `IpRange::iter_free` to each subnet address:
drop addresses below `range_start`, above `range_end`, or equal to the
gateway. Mirrors the closure in `iter_free`. -/
def IpRange.freeFilter (r : IpRange) (ip : IpAddr) : Bool :=
  (match r.range_start with
    | some s => !(ip.ltb s)
    | none => true)
  && (match r.range_end with
    | some e => !(e.ltb ip)
    | none => true)
  && (match r.gateway with
    | some gw => !(ip == gw)
    | none => true)

/-- `IpRange::iter_free`: iterate the whole subnet, filter, and map each
surviving address to a CIDR with the subnet's prefix length, paired with
the range itself (`(IpNetwork::new(ip, prefix).unwrap(), self)`). -/
def IpRange.iter_free (r : IpRange) : List (IpNetwork × IpRange) :=
  (r.subnet.iter.filter r.freeFilter).map fun ip => (⟨ip, r.subnet.prefixLen⟩, r)

/-! ## JSON values, versions, and the shared error type

`serde_json::Value` is modelled with integer numbers only (no plugin code
inspected by a claim reads a float). `semver::Version` is modelled as the
numeric triple plus the pre-release tag; build metadata is never used by
the source. -/

/-- Model of `serde_json::Value`. -/
inductive Json
  | null
  | bool (b : Bool)
  | num (n : Int)
  | str (s : String)
  | arr (xs : List Json)
  | obj (kvs : List (String × Json))

/-- `Value::as_u64`: the numeric value if it is a non-negative integer. -/
def Json.as_u64 : Json → Option Nat
  | .num n => if 0 ≤ n then some n.toNat else none
  | _ => none

/-- `Value::as_str`. -/
def Json.as_str : Json → Option String
  | .str s => some s
  | _ => none

/-- `Value::is_null`. -/
def Json.js_is_null : Json → Bool
  | .null => true
  | _ => false

/-- Lookup in a JSON object map (`HashMap<String, Value>::get`). -/
def jsonGet (kvs : List (String × Json)) (k : String) : Option Json :=
  (kvs.find? fun kv => kv.1 == k).map Prod.snd

/-- Model of `semver::Version` (build metadata unused by the source). -/
structure Version where
  major : Nat
  minor : Nat
  patch : Nat
  pre : String := ""
  deriving DecidableEq, Repr

/-- Display of a version (`semver::Version: Display`). -/
def Version.display (v : Version) : String :=
  toString v.major ++ "." ++ toString v.minor ++ "." ++ toString v.patch
    ++ (if v.pre = "" then "" else "-" ++ v.pre)

/-- `src/plugin/src/error.rs`: the shared `CniError` type. Underlying
foreign errors (`std::io::Error`, `serde_json::Error`, `VarError`,
`which::Error`, boxed trait objects) are carried as their rendered
message strings. -/
inductive CniError
  | io (err : String)
  | json (err : String)
  | incompatible (v : Version)
  | missingInput
  | missingOutput
  | missingEnv (var : String) (err : String)
  | invalidEnv (var : String) (err : String)
  | noCwd
  | missingPlugin (name : String) (err : String)
  | delegated (plugin : String) (err : CniError)
  | generic (s : String)
  | debugErr (s : String)
  | missingField (f : String)
  | invalidField (field expected : String) (value : Json)

/-- Debug rendering of a JSON value, used only inside `details` strings
(`{value:?}` in the `InvalidField` thiserror attribute). Simplified
rendering; no claim inspects these strings. -/
def Json.debugRender : Json → String
  | .null => "Null"
  | .bool b => "Bool(" ++ toString b ++ ")"
  | .num n => "Number(" ++ toString n ++ ")"
  | .str s => "String(" ++ s ++ ")"
  | .arr _ => "Array(..)"
  | .obj _ => "Object(..)"

/-- `Display for CniError` per the thiserror attributes in `error.rs`. -/
def CniError.display : CniError → String
  | .io e => e
  | .json e => e
  | .incompatible v =>
    "plugin does not understand CNI version: " ++ v.display
  | .missingInput => "missing input network config"
  | .missingOutput => "missing plugin output"
  | .missingEnv var err => "missing environment variable: " ++ var ++ ": " ++ err
  | .invalidEnv var err =>
    "environment variable has invalid format: " ++ var ++ ": " ++ err
  | .noCwd => "cannot obtain current working directory"
  | .missingPlugin name err =>
    "missing (or not on CNI_PATH) plugin " ++ name ++ ": " ++ err
  | .delegated plugin err => "with plugin " ++ plugin ++ ": " ++ err.display
  | .generic s => s
  | .debugErr s => s
  | .missingField f => "can't proceed without " ++ f ++ " field"
  | .invalidField field expected value =>
    field ++ ": expected " ++ expected ++ ", got: " ++ value.debugRender

/-- `src/plugin/src/reply.rs`: the error reply document. `msg` is a static
string; `code` doubles as the process exit code. -/
structure ErrorReply where
  cniVersion : Version
  code : Int
  msg : String
  details : String
  deriving DecidableEq, Repr

/-- `CniError::into_reply`: the code/msg table in `error.rs`. -/
def CniError.into_reply (e : CniError) (cniVersion : Version) : ErrorReply :=
  match e with
  | .io _ => ⟨cniVersion, 5, "I/O error", e.display⟩
  | .json _ => ⟨cniVersion, 6, "Cannot decode JSON payload", e.display⟩
  | .incompatible _ => ⟨cniVersion, 1, "Incompatible CNI version", e.display⟩
  | .missingInput => ⟨cniVersion, 7, "Missing payload", e.display⟩
  | .missingOutput => ⟨cniVersion, 7, "Missing output", e.display⟩
  | .missingEnv _ _ => ⟨cniVersion, 4, "Missing environment variable", e.display⟩
  | .invalidEnv _ _ => ⟨cniVersion, 4, "Invalid environment variable", e.display⟩
  | .noCwd => ⟨cniVersion, 5, "Bad workdir", e.display⟩
  | .missingPlugin _ _ => ⟨cniVersion, 5, "Missing plugin", e.display⟩
  | .delegated _ _ => ⟨cniVersion, 5, "Delegated", e.display⟩
  | .generic s => ⟨cniVersion, 100, "ERROR", s⟩
  | .debugErr _ => ⟨cniVersion, 101, "DEBUG", e.display⟩
  | .missingField _ => ⟨cniVersion, 104, "Missing field", e.display⟩
  | .invalidField _ _ _ => ⟨cniVersion, 107, "Invalid field", e.display⟩

/-! ## The consul allocator's error type (`src/ipam-da-consul/src/error.rs`) -/

/-- `AppError` of `ipam-da-consul`. Foreign errors are carried as rendered
message strings, as for `CniError`. -/
inductive AppError
  | cni (err : CniError)
  | url (err : String)
  | http (err : String)
  | missingResource (remote resource path : String)
  | invalidResource (remote resource path err : String)
  | poolFull (pool : String)
  | notInPool (pool : String) (ip : IpAddr)
  | consulWriteFailed

/-- Display of an IP address (Rust std `Display`). Exact for v4
(dotted-decimal octets). For v6 we render the eight hexadecimal groups in
full, without the `::` zero-run compression Rust applies; every address a
claim displays is v4, where this model is exact. -/
def IpAddr.display : IpAddr → String
  | ⟨.v4, n⟩ =>
    toString (n / 2 ^ 24 % 256) ++ "." ++ toString (n / 2 ^ 16 % 256) ++ "."
      ++ toString (n / 2 ^ 8 % 256) ++ "." ++ toString (n % 256)
  | ⟨.v6, n⟩ =>
    String.intercalate ":"
      (((List.range 8).reverse).map fun g =>
        String.mk (Nat.toDigits 16 (n / 2 ^ (16 * g) % 65536)))

/-- `Display for AppError` per the thiserror attributes in
`src/ipam-da-consul/src/error.rs`. -/
def AppError.display : AppError → String
  | .cni e => e.display
  | .url e => e
  | .http e => e
  | .missingResource remote resource path =>
    remote ++ "::" ++ resource ++ " at " ++ path
  | .invalidResource remote resource path err =>
    remote ++ "::" ++ resource ++ " at " ++ path ++ ": " ++ err
  | .poolFull pool => pool ++ " does not have any free IP space"
  | .notInPool pool ip =>
    let ipd := ip.display
    pool ++ " cannot contain " ++ ipd
  | .consulWriteFailed => "consul write failed"

/-- `AppError::into_reply`: the code/msg table in
`src/ipam-da-consul/src/error.rs`; `Cni` errors defer to
`CniError::into_reply`. -/
def AppError.into_reply (e : AppError) (cniVersion : Version) : ErrorReply :=
  match e with
  | .cni err => err.into_reply cniVersion
  | .url _ => ⟨cniVersion, 120, "Error constructing URL", e.display⟩
  | .http _ => ⟨cniVersion, 111, "HTTP", e.display⟩
  | .missingResource _ _ _ => ⟨cniVersion, 114, "Missing resource", e.display⟩
  | .invalidResource _ _ _ _ => ⟨cniVersion, 117, "Invalid resource", e.display⟩
  | .poolFull _ => ⟨cniVersion, 122, "Pool is full", e.display⟩
  | .notInPool _ _ => ⟨cniVersion, 124, "IP not in pool", e.display⟩
  | .consulWriteFailed => ⟨cniVersion, 125, "KV PUT", e.display⟩

/-! ## The consul KV envelope (`src/ipam-da-consul/src/consul.rs`) -/

/-- `ConsulValue<T>`: a KV value as deserialized (null or raw base64
string) or after parsing. -/
inductive ConsulValue (T : Type)
  | null
  | str (raw : String)
  | parsed (v : T)
  deriving DecidableEq, Repr

/-- `ConsulValue::is_null`. -/
def ConsulValue.cv_is_null : ConsulValue T → Bool
  | .null => true
  | _ => false

/-- `ConsulPair<T>`: the KV envelope as served by consul. -/
structure ConsulPair (T : Type) where
  lockIndex : Nat
  key : String
  flags : Int
  value : ConsulValue T
  createIndex : Nat
  modifyIndex : Nat
  deriving DecidableEq, Repr

/-- `ConsulPair::parse_value`, parametrised by the base64+JSON decoding of
the payload (`base64::decode` then `serde_json::from_slice`, both external
libraries); `decode` returns the parsed value or the rendered
`ConsulError` message. -/
def ConsulPair.parse_value (decode : String → Except String T)
    (p : ConsulPair T) : Except String (ConsulPair T) :=
  match p.value with
  | .null => .ok p
  | .parsed _ => .ok p
  | .str raw => (decode raw).map fun v => { p with value := .parsed v }

/-- `ConsulPair::parsed_value`: parse, then extract the payload
(`None` for a null value). The `String` case after parsing is the Rust
`unreachable!`, modelled as `none`-with-error below where it matters. -/
def ConsulPair.parsed_value (decode : String → Except String T)
    (p : ConsulPair T) : Except String (Option T) :=
  (p.parse_value decode).map fun pair =>
    match pair.value with
    | .parsed v => some v
    | _ => none

/-! ## The consul allocator (`src/ipam-da-consul/src/main.rs`) -/

/-- The PUT body `{target: <container-id>}`. -/
structure PoolEntry where
  target : String
  deriving DecidableEq, Repr

/-- One taken-IP record: the allocation's target container and the KV
`ModifyIndex` used as CAS token on DEL. -/
structure KnownPoolEntry where
  target : String
  index : Nat
  deriving DecidableEq, Repr

/-- `str::split` on one separator character, over the key's characters
(Rust `key.split('/')`): splitting the empty string yields one empty
segment, and every separator starts a new segment. -/
def splitChar (sep : Char) : List Char → List (List Char)
  | [] => [[]]
  | c :: cs =>
    let rest := splitChar sep cs
    if c = sep then [] :: rest
    else
      match rest with
      | seg :: segs => (c :: seg) :: segs
      | [] => [[c]]

/-- `key.split('/').last()`: the last segment of the key. `split` always
yields at least one segment, so Rust's `last()` is always `Some`; the
default never fires. -/
def lastSegment (s : String) : String :=
  String.mk ((splitChar (Char.ofNat 47) s.data).getLastD [])

/-- `pool_known`, per non-null pair: parse the value as a `PoolEntry`,
take the last `/`-segment of the key, parse it as an IP (Rust std
`IpAddr::from_str`, passed in as `ipFromStr`), and keep the
`ModifyIndex`. Errors map to `InvalidResource` exactly as in the source.
The final `unreachable!` branch (non-parsed value after `parse_value` on
a non-null pair) cannot execute; it is modelled as a generic error. -/
def poolKnownEntry (decodeEntry : String → Except String PoolEntry)
    (ipFromStr : String → Option IpAddr) (pair : ConsulPair PoolEntry) :
    Except AppError (IpAddr × KnownPoolEntry) := do
  let key := pair.key
  let p ← (pair.parse_value decodeEntry).mapError fun err =>
    AppError.invalidResource "consul" "ip-pool" key
      ("expected value to be a JSON string; " ++ err)
  let index := p.modifyIndex
  let ipStr := lastSegment p.key
  match ipFromStr ipStr with
  | none =>
    .error (AppError.invalidResource "consul" "ip-pool" key
      "expected key to be an IP address; invalid IP address syntax")
  | some ip =>
    match p.value with
    | .parsed v => .ok (ip, ⟨v.target, index⟩)
    | _ => .error (AppError.cni (.generic "unreachable"))

/-- `pool_known`: filter out null-valued pairs, then parse every remaining
pair. The Rust code collects into a `BTreeMap`; we keep the association
list (later bindings shadow earlier ones for equal keys, exactly as
`BTreeMap::from_iter` keeps the last — membership, the only operation the
allocator performs, agrees). -/
def poolKnown (decodeEntry : String → Except String PoolEntry)
    (ipFromStr : String → Option IpAddr)
    (pairs : List (ConsulPair PoolEntry)) :
    Except AppError (List (IpAddr × KnownPoolEntry)) :=
  (pairs.filter fun p => !p.value.cv_is_null).mapM
    (poolKnownEntry decodeEntry ipFromStr)

/-- `BTreeMap::contains_key` on the modelled association list. -/
def takenContains (known : List (IpAddr × KnownPoolEntry)) (ip : IpAddr) :
    Bool :=
  known.any fun kv => kv.1 == ip

/-- A KV PUT issued by the allocator: the URL path, whether `cas=0` was
appended, and the body's `target`. -/
structure KvPut where
  path : String
  cas0 : Bool
  target : String
  deriving DecidableEq, Repr

/-- `ips` entry of a success reply. -/
structure IpReply where
  address : IpNetwork
  gateway : Option IpAddr
  interface : Option Nat
  deriving DecidableEq, Repr

/-- `routes` entry of a success reply. -/
structure RouteReply where
  dst : IpNetwork
  gw : Option IpAddr
  deriving DecidableEq, Repr

/-- `IpamSuccessReply` (the `dns` and `specific` fields, always left at
their defaults by the allocator and never mentioned by a claim, are
omitted). -/
structure IpamReply where
  cniVersion : Version
  ips : List IpReply
  routes : List RouteReply
  deriving DecidableEq, Repr

/-- The `Command::Add` arm of `ipam-da-consul::main` after the pool
definition has been fetched. Inputs: the parsed pool definition, the raw
recursive listing of `ipam/<pool>/` (fetched only when no IP was
requested), and the KV's answer to the PUT (`putSuccess`). Output: the
reply-or-error together with the list of KV PUTs performed. -/
def addFlow (cniVersion : Version) (containerId poolName : String)
    (requestedIp : Option IpAddr) (pool : List IpRange)
    (decodeEntry : String → Except String PoolEntry)
    (ipFromStr : String → Option IpAddr)
    (knownPairs : List (ConsulPair PoolEntry)) (putSuccess : Bool) :
    Except AppError IpamReply × List KvPut :=
  let decision : Except AppError (IpNetwork × Option IpAddr) :=
    match requestedIp with
    | some ip =>
      -- `for range in &pool { if range.subnet.contains(ip) { .. } }`
      let st := pool.foldl
        (fun acc range =>
          if range.subnet.contains ip then
            (some range.subnet.prefixLen, range.gateway)
          else acc)
        ((none : Option Nat), (none : Option IpAddr))
      match st.1 with
      | some p => .ok (⟨ip, p⟩, st.2)
      | none => .error (.notInPool poolName ip)
    | none =>
      match poolKnown decodeEntry ipFromStr knownPairs with
      | .error e => .error e
      | .ok known =>
        match ((pool.flatMap IpRange.iter_free).filter
            fun pr => !takenContains known pr.1.ip).head? with
        | some pr => .ok (pr.1, pr.2.gateway)
        | none => .error (.poolFull poolName)
  match decision with
  | .error e => (.error e, [])
  | .ok (ip, gateway) =>
    let ipd := ip.ip.display
    let put : KvPut :=
      ⟨"v1/kv/ipam/" ++ poolName ++ "/" ++ ipd, requestedIp.isNone,
        containerId⟩
    if putSuccess then
      (.ok
        { cniVersion
          routes :=
            [⟨match ip.ip.fam with
              | .v4 => ⟨⟨.v4, 0⟩, 0⟩
              | .v6 => ⟨⟨.v6, 0⟩, 0⟩,
              gateway⟩]
          ips := [⟨ip, gateway, none⟩] },
        [put])
    else
      (.error .consulWriteFailed, [put])

/-- Exit code of a finished invocation: 0 for a success reply, the error
reply's own code otherwise (`reply()` + `ReplyPayload::code`). -/
def appExitCode (res : Except AppError IpamReply) (cniVersion : Version) :
    Int :=
  match res with
  | .ok _ => 0
  | .error e => (e.into_reply cniVersion).code

/-- Display of a CIDR (`ipnetwork::IpNetwork: Display`). -/
def IpNetwork.display (n : IpNetwork) : String :=
  n.ip.display ++ "/" ++ toString n.prefixLen

/-- The `ips` field of a successful outcome (observation helper used by
the claim statements). -/
def replyIps : Except AppError IpamReply → Option (List IpReply)
  | .ok rep => some rep.ips
  | .error _ => none

/-! ## C3: the fresh-allocation scenario -/

/-- The pool definition of spec scenario 1:
`[{subnet: "10.0.0.0/29", gateway: "10.0.0.1"}]`. -/
def scenarioPool : List IpRange :=
  [⟨⟨v4 10 0 0 0, 29⟩, none, none, some (v4 10 0 0 1)⟩]

/-- Version `1.0.0`. -/
def v100 : Version := ⟨1, 0, 0, ""⟩

/-- Payload decoder for scenarios with no KV allocation entries. -/
def noDecode : String → Except String PoolEntry := fun _ => .error "unused"

/-- Key parser for scenarios with no KV allocation entries. -/
def noIpParse : String → Option IpAddr := fun _ => none

/-! ## Witnesses for C1 and C2 -/

/-- Decoder used by witnesses: the payload's `target` is the raw string
itself. -/
def wDecode : String → Except String PoolEntry := fun s => .ok ⟨s⟩

/-- Key parser used by witnesses: recognises `10.0.0.2` only. -/
def wIpParse : String → Option IpAddr := fun s =>
  if s = "10.0.0.2" then some (v4 10 0 0 2) else none

/-- A recursive listing with one taken entry at `10.0.0.2` and one
null-valued (tombstone) entry. -/
def wPairs : List (ConsulPair PoolEntry) :=
  [⟨0, "ipam/v4/10.0.0.2", 0, .str "t1", 0, 7⟩,
    ⟨0, "ipam/v4/tomb", 0, .null, 0, 3⟩]

/-! ## Version negotiation (`src/plugin/src/version.rs`) -/

/-- `SUPPORTED_VERSIONS = ["0.4.0", "1.0.0"]`, parsed. -/
def SUPPORTED_VERSIONS : List Version := [⟨0, 4, 0, ""⟩, ⟨1, 0, 0, ""⟩]

/-- The `semver` requirement `=0.4.0||^1.0.0` (`COMPATIBLE_VERSIONS`),
per the semver crate's matching rules: `=0.4.0` matches exactly `0.4.0`
with no pre-release; `^1.0.0` matches any `1.x.y` with no pre-release
(caret on a non-zero major pins only the major, and a pre-release version
only matches a comparator carrying the same pre-release base, which
neither comparator does). -/
def compatibleMatches (v : Version) : Bool :=
  (v == ⟨0, 4, 0, ""⟩) || (v.major == 1 && v.pre == "")

/-- `Cni::check_version`. -/
def check_version (v : Version) : Except CniError Unit :=
  if !compatibleMatches v then .error (.incompatible v) else .ok ()

/-- The `VERSION` reply document. -/
structure VersionReply where
  cniVersion : Version
  supportedVersions : List Version
  deriving DecidableEq, Repr

/-- Exit code used when replying with a `VersionReply`
(`ReplyPayload::code` default). -/
def VersionReply.exitCode (_rep : VersionReply) : Int := 0

/-- `Cni::handle_version`: the statically supported set plus the incoming
version when it checks out. The Rust `HashSet` is modelled as a
duplicate-free list in insertion order; the claim inspects only
membership, which the set's randomised iteration order cannot affect. -/
def handle_version (v : Version) : VersionReply :=
  let isCompat :=
    match check_version v with
    | .ok _ => true
    | .error _ => false
  ⟨v,
    if isCompat && !(SUPPORTED_VERSIONS.contains v) then
      SUPPORTED_VERSIONS ++ [v]
    else
      SUPPORTED_VERSIONS⟩

/-! ## Input loading (`src/plugin/src/cni.rs`, `command.rs`) -/

/-- The four plugin commands. -/
inductive Command
  | add
  | del
  | check
  | version
  deriving DecidableEq, Repr

/-- `Command::from_str`: exactly ADD, DEL, CHECK, or VERSION. -/
def parseCommand : String → Option Command
  | "ADD" => some .add
  | "DEL" => some .del
  | "CHECK" => some .check
  | "VERSION" => some .version
  | _ => none

/-- `IpamConfig`: the `type` field plus the flattened plugin-specific
keys (`pools`, `consul_servers`, `delegates`, …). The optional
`subnet`/`gateway`/`routes` well-known fields are untouched by every
claim and omitted. -/
structure IpamConfig where
  plugin : String
  specific : List (String × Json) := []

/-- `NetworkConfig`: the fields the claims inspect. `args`, `ipMasq`,
`dns` and `runtimeConfig` are deserialized by the source but never read
by any code a claim covers, and are omitted; the flattened top-level
extras are `specific`. -/
structure NetworkConfig where
  cniVersion : Version
  name : String
  plugin : String
  ipam : Option IpamConfig := none
  prevResult : Option Json := none
  specific : List (String × Json) := []

/-- The parsed input variants (`Cni` in `cni.rs`); `path` is the parsed
`CNI_PATH`. -/
inductive Cni
  | add (containerId ifname netns : String) (path : List String)
      (config : NetworkConfig)
  | del (containerId ifname : String) (netns : Option String)
      (path : List String) (config : NetworkConfig)
  | check (containerId ifname netns : String) (path : List String)
      (config : NetworkConfig)
  | version (v : Version)

/-- The process environment as the plugin sees it: the `CNI_*` variables
and the standard input read to EOF. -/
structure CniEnv where
  command : Option String
  containerId : Option String
  ifname : Option String
  netns : Option String
  path : Option String
  stdinPayload : String

/-- `std::env::split_paths` on the unix `:` separator (claims never
inspect the result). -/
def splitPaths : Option String → List String
  | none => []
  | some s => (splitChar (Char.ofNat 58) s.data).map fun cs => String.mk cs

/-- `require_env` for a plain string variable (`String: FromStr` cannot
fail; only absence errors). The `VarError::NotPresent` display is
"environment variable not found". -/
def requireString (var : String) (val : Option String) :
    Except CniError String :=
  match val with
  | none => .error (.missingEnv var "environment variable not found")
  | some v => .ok v

/-- `require_env::<Command>("CNI_COMMAND")`: absence, then parse failure
(`InvalidCommandError` displays "must be one of ADD, DEL, CHECK,
VERSION"). -/
def requireCommand (val : Option String) : Except CniError Command :=
  match val with
  | none => .error (.missingEnv "CNI_COMMAND" "environment variable not found")
  | some s =>
    match parseCommand s with
    | some c => .ok c
    | none =>
      .error (.invalidEnv "CNI_COMMAND"
        "must be one of ADD, DEL, CHECK, VERSION")

/-- First character class of the container-id regex: `[a-z0-9]`. -/
def isLowerAlnum (c : Char) : Bool :=
  ('a' ≤ c && c ≤ 'z') || ('0' ≤ c && c ≤ '9')

/-- Tail character class of the container-id regex: `[a-z0-9_.-]`. -/
def isIdChar (c : Char) : Bool :=
  isLowerAlnum c || c = '_' || c = '.' || c = '-'

/-- The anchored regex `^[a-z0-9][a-z0-9_.\-]*$` as a character test. -/
def containerIdRegex (id : String) : Bool :=
  match id.data with
  | [] => false
  | c :: cs => isLowerAlnum c && cs.all isIdChar

/-- `check_container_id`: reject empty, then reject a regex mismatch
(`RegexValueError` displays "must match regex: " plus the pattern). -/
def checkContainerId (id : String) : Except CniError Unit :=
  if id = "" then
    .error (.invalidEnv "CNI_CONTAINERID" "must not be empty")
  else if !containerIdRegex id then
    .error (.invalidEnv "CNI_CONTAINERID"
      "must match regex: ^[a-z0-9][a-z0-9_.\\-]*$")
  else
    .ok ()

/-- `Cni::from_env`: read `CNI_PATH`, read stdin to EOF and reject an
empty payload, then dispatch on `CNI_COMMAND`; for ADD/DEL/CHECK,
validate the container id, parse the config JSON (`parseConfig` stands
for `serde_json::from_slice`), check the version, then read the
remaining environment. `parseVersionPayload` likewise stands for the
JSON parse of the VERSION payload. -/
def from_env (env : CniEnv)
    (parseConfig : String → Except String NetworkConfig)
    (parseVersionPayload : String → Except String Version) :
    Except CniError Cni :=
  let path := splitPaths env.path
  if env.stdinPayload = "" then
    .error .missingInput
  else
    match requireCommand env.command with
    | .error e => .error e
    | .ok .add =>
      match requireString "CNI_CONTAINERID" env.containerId with
      | .error e => .error e
      | .ok cid =>
        match checkContainerId cid with
        | .error e => .error e
        | .ok _ =>
          match parseConfig env.stdinPayload with
          | .error e => .error (.json e)
          | .ok config =>
            match check_version config.cniVersion with
            | .error e => .error e
            | .ok _ =>
              match requireString "CNI_IFNAME" env.ifname with
              | .error e => .error e
              | .ok ifname =>
                match requireString "CNI_NETNS" env.netns with
                | .error e => .error e
                | .ok netns => .ok (.add cid ifname netns path config)
    | .ok .del =>
      match requireString "CNI_CONTAINERID" env.containerId with
      | .error e => .error e
      | .ok cid =>
        match checkContainerId cid with
        | .error e => .error e
        | .ok _ =>
          match parseConfig env.stdinPayload with
          | .error e => .error (.json e)
          | .ok config =>
            match check_version config.cniVersion with
            | .error e => .error e
            | .ok _ =>
              match requireString "CNI_IFNAME" env.ifname with
              | .error e => .error e
              | .ok ifname => .ok (.del cid ifname env.netns path config)
    | .ok .check =>
      match requireString "CNI_CONTAINERID" env.containerId with
      | .error e => .error e
      | .ok cid =>
        match checkContainerId cid with
        | .error e => .error e
        | .ok _ =>
          match parseConfig env.stdinPayload with
          | .error e => .error (.json e)
          | .ok config =>
            match check_version config.cniVersion with
            | .error e => .error e
            | .ok _ =>
              match requireString "CNI_IFNAME" env.ifname with
              | .error e => .error e
              | .ok ifname =>
                match requireString "CNI_NETNS" env.netns with
                | .error e => .error e
                | .ok netns => .ok (.check cid ifname netns path config)
    | .ok .version =>
      match parseVersionPayload env.stdinPayload with
      | .error e => .error (.json e)
      | .ok v => .ok (.version v)

/-- What `Cni::load` writes and does: proceed with the parsed input,
reply with an error document (and exit with its code), or reply to
VERSION (and exit 0). -/
inductive LoadOutcome
  | proceed (cni : Cni)
  | errorReply (rep : ErrorReply)
  | versionReply (rep : VersionReply)

/-- `Cni::load`: errors are replied at the plugin's own highest supported
version `1.0.0` (`Version::parse("1.0.0")` in the source); the VERSION
command is answered by `handle_version`. -/
def load (env : CniEnv)
    (parseConfig : String → Except String NetworkConfig)
    (parseVersionPayload : String → Except String Version) : LoadOutcome :=
  match from_env env parseConfig parseVersionPayload with
  | .error e => .errorReply (e.into_reply ⟨1, 0, 0, ""⟩)
  | .ok (.version v) => .versionReply (handle_version v)
  | .ok c => .proceed c

/-- Environment of the incompatible-version scenario: an ADD with a
valid container id and `cniVersion: "0.3.0"` on stdin. -/
def wEnv : CniEnv :=
  ⟨some "ADD", some "abc1", some "eth0", some "/var/run/netns/x", none,
    "cfg"⟩

/-- The parsed config of the incompatible-version scenario. -/
def wCfg : NetworkConfig := ⟨⟨0, 3, 0, ""⟩, "net", "plug", none, none, []⟩

/-- Config parser of the scenario. -/
def wParseConfig : String → Except String NetworkConfig :=
  fun _ => .ok wCfg

/-- Version-payload parser of the scenario. -/
def wParseVersion : String → Except String Version :=
  fun _ => .ok ⟨0, 3, 0, ""⟩

/-! ## The nomad IPAM selector (`src/ipam-ds-nomad/src/main.rs`) -/

/-- Rust `str::starts_with` on a string pattern. -/
def strStartsWith (s p : String) : Bool :=
  p.data.isPrefixOf s.data

/-- The allocation id the selector queries for: container ids carrying
the `cnitool-` testing prefix map to the hardcoded test allocation id;
every other container id is used as-is. -/
def nomadAllocId (containerId : String) : String :=
  if strStartsWith containerId "cnitool-" then
    "ae999124-a427-2e89-f763-a8742900854b"
  else
    containerId

/-- The path queried against each nomad server:
`nomad_url.join("v1/allocation/")?.join(&alloc_id)?` — `Url::join` of a
relative segment onto a base ending in `/` appends it. -/
def allocationPath (containerId : String) : String :=
  "v1/allocation/" ++ nomadAllocId containerId

/-! ## The delegation driver (`src/plugin/src/delegation.rs`) -/

/-- `delegate::<S>`: the driver's control flow around its two possible
`delegate_command` subprocess runs. `pre` stands for the preamble
(current directory, `CNI_PATH`, `which_in` lookup, config serialization),
whose failures are returned before any subprocess runs and are already
wrapped as in the source. `firstRun` is the result of running the
sub-plugin with `command`; `cleanupRun` the result of the rollback run
with DEL, consulted only where the source makes that call. A run result
is the child's `ExitStatus::success()` flag and its captured stdout;
`parse` stands for `serde_json::from_reader` on that stdout. Besides the
driver's result, the list of `delegate_command` invocations (by command)
is returned. -/
def delegate {S : Type} (sub_plugin : String) (command : Command)
    (pre : Except CniError Unit)
    (firstRun cleanupRun : Except CniError (Bool × String))
    (parse : String → Except String S) :
    Except CniError S × List Command :=
  match pre with
  | .error e => (.error e, [])
  | .ok _ =>
    match firstRun with
    | .ok (statusSuccess, stdout) =>
      if stdout = "" then
        if command = .add then
          match cleanupRun with
          | .error err =>
            (.error (.delegated sub_plugin err), [command, .del])
          | .ok _ =>
            (.error (.delegated sub_plugin .missingOutput),
              [command, .del])
        else
          (.error (.delegated sub_plugin .missingOutput), [command])
      else if statusSuccess then
        match parse stdout with
        | .ok s => (.ok s, [command])
        | .error err =>
          (.error (.delegated sub_plugin (.json err)), [command])
      else
        if command = .add then
          match cleanupRun with
          | .error err =>
            (.error (.delegated sub_plugin err), [command, .del])
          | .ok _ =>
            (.error (.delegated sub_plugin (.generic stdout)),
              [command, .del])
        else
          (.error (.delegated sub_plugin (.generic stdout)), [command])
    | .error err =>
      -- the cleanup DEL is attempted and its outcome discarded (`.ok()`)
      if command = .add then
        (.error (.delegated sub_plugin err), [command, .del])
      else
        (.error (.delegated sub_plugin err), [command])

/-- Reply parser for delegation scenarios that never reach parsing. -/
def unusedParse : String → Except String Unit := fun _ => .error "unused"

/-! ## The chained IPAM driver (`src/ipam-delegated/src/main.rs`) -/

/-- `multi_error`: wrap the accumulated `(plugin, error)` pairs as one
`Delegated` error — plugin names joined with `,`, messages joined with
newlines. -/
def multiError (errors : List (String × CniError)) : CniError :=
  .delegated (String.intercalate "," (errors.map Prod.fst))
    (.generic (String.intercalate "\n"
      (errors.map fun e => e.2.display)))

/-- The rollback loop over `undo`: DEL each plugin in the order the
vector holds them; a success threads its reply into `prevResult`, a
failure is appended to the error list. Returns the final error list and
the calls made. `env` stands for `delegate` (abstracted on the config's
`prevResult`, the only part of the config the loop mutates). -/
def undoLoop {S : Type} (env : String → Command → Option S → Except CniError S) :
    List String → Option S → List (String × CniError) →
    List (String × CniError) × List (String × Command)
  | [], _, errors => (errors, [])
  | p :: ps, prev, errors =>
    match env p .del prev with
    | .ok r =>
      let rest := undoLoop env ps (some r) errors
      (rest.1, (p, .del) :: rest.2)
    | .error e =>
      let rest := undoLoop env ps prev (errors ++ [(p, e)])
      (rest.1, (p, .del) :: rest.2)

/-- The ADD loop of `ipam-delegated`: push the plugin onto `undo`
*before* attempting its ADD; on success thread the reply; on failure
run `undoLoop` over everything pushed so far (the failing plugin
included) and return the joined error. -/
def addLoop {S : Type} (env : String → Command → Option S → Except CniError S) :
    List String → Option S → Option S → List String →
    Except CniError S × List (String × Command)
  | [], _, lastResult, _ =>
    (match lastResult with
      | some r => .ok r
      | none => .error (.generic "no IPAM delegated plugins ran"), [])
  | p :: ps, prev, _lastResult, undo =>
    let undo' := undo ++ [p]
    match env p .add prev with
    | .ok reply =>
      let rest := addLoop env ps (some reply) (some reply) undo'
      (rest.1, (p, .add) :: rest.2)
    | .error err =>
      let dels := undoLoop env undo' prev [(p, err)]
      (.error (multiError dels.1), (p, .add) :: dels.2)

/-- The `Command::Add` arm of `ipam-delegated::main` (after the
`delegates` list is extracted): reject an empty list, then run the ADD
loop. Returns the result and the `delegate` calls made, in order. -/
def ipamDelegatedAdd {S : Type} (delegates : List String)
    (env : String → Command → Option S → Except CniError S)
    (initPrev : Option S) :
    Except CniError S × List (String × Command) :=
  if delegates.isEmpty then
    (.error (.invalidField "ipam.delegates" "at least one plugin"
      (.arr [])), [])
  else
    addLoop env delegates initPrev none []

/-- A chain environment where `a` and `b` ADD fine, `c` fails its ADD,
and every DEL succeeds. -/
def chainEnvC5 : String → Command → Option Unit → Except CniError Unit :=
  fun p c _ =>
    match p, c with
    | "c", .add => .error (.io "boom")
    | _, _ => .ok ()

/-! ## The host mutators (`src/host-neigh/src/main.rs`,
`src/host-routes/src/main.rs`) -/

/-- The per-directive retry budget, computed identically by host-neigh
and host-routes from `config.specific`:
`get("neigh").and_then(as_u64).and_then(u8::try_from(..).ok())` then
`map(|n| if n == 0 || n > 10 { 10 } else { n }).unwrap_or(3)`. -/
def hostTries (specific : List (String × Json)) : Nat :=
  ((((jsonGet specific "neigh").bind Json.as_u64).bind fun n =>
      if n ≤ 255 then some n else none).map fun n =>
      if n == 0 || n > 10 then 10 else n).getD 3

/-- host-neigh's extraction of the jq expression: the `neigh` key must
exist and be a string. -/
def hostNeighExpr (specific : List (String × Json)) :
    Except CniError String :=
  match jsonGet specific "neigh" with
  | none => .error (.missingField "neigh")
  | some v =>
    match v.as_str with
    | some s => .ok s
    | none => .error (.invalidField "neigh" "string" v)

/-- host-routes' extraction of the jq expression: the `routing` key must
exist and be a string. -/
def hostRoutesExpr (specific : List (String × Json)) :
    Except CniError String :=
  match jsonGet specific "routing" with
  | none => .error (.missingField "routing")
  | some v =>
    match v.as_str with
    | some s => .ok s
    | none => .error (.invalidField "routing" "string" v)

/-- Observable events of one directive's `Trial::run` loop. -/
inductive TrialEvent
  | attempt (i : Nat)
  | sleepMs (ms : Nat)
  deriving DecidableEq, Repr

/-- `Trial::run` from attempt index `i` with `rem` attempts left:
`for _ in 0..tries { if try_once() errors { last_error = Some(err);
sleep 50ms } else { break } }`. `outcome j` is attempt `j`'s result
(`none` = success). Note the source never clears `last_error` on a later
success. -/
def trialRunFrom (outcome : Nat → Option CniError) :
    Nat → Nat → Option CniError → Option CniError × List TrialEvent
  | 0, _, lastErr => (lastErr, [])
  | rem + 1, i, lastErr =>
    match outcome i with
    | some e =>
      let rest := trialRunFrom outcome rem (i + 1) (some e)
      (rest.1, .attempt i :: .sleepMs 50 :: rest.2)
    | none => (lastErr, [.attempt i])

/-- `Trial::run`. -/
def trialRun (tries : Nat) (outcome : Nat → Option CniError) :
    Option CniError × List TrialEvent :=
  trialRunFrom outcome tries 0 none

/-- The event schedule the spec describes for a failing run: each
attempt followed by a 50 ms sleep. -/
def failTrace : Nat → Nat → List TrialEvent
  | 0, _ => []
  | n + 1, i => .attempt i :: .sleepMs 50 :: failTrace n (i + 1)

/-! ## Theorems -/

/-! ## Helper lemmas about subnet iteration -/

/-- `contains` characterised by the half-open window of the subnet's
addresses. -/
theorem IpNetwork.contains_iff (n : IpNetwork) (a : IpAddr) :
    n.contains a = true ↔
      a.fam = n.ip.fam ∧ n.network ≤ a.addr ∧ a.addr < n.network + n.size := by
  have hsz : 0 < n.size := Nat.pos_pow_of_pos _ (by decide)
  have hmod_a : a.addr % n.size < n.size := Nat.mod_lt _ hsz
  have hdm_a : n.size * (a.addr / n.size) + a.addr % n.size = a.addr :=
    Nat.div_add_mod _ _
  unfold IpNetwork.contains IpNetwork.network
  simp only [Bool.and_eq_true, beq_iff_eq]
  constructor
  · rintro ⟨hf, hdiv⟩
    refine ⟨hf.symm, ?_, ?_⟩
    · calc n.ip.addr / n.size * n.size = a.addr / n.size * n.size := by rw [hdiv]
        _ ≤ a.addr := Nat.div_mul_le_self _ _
    · have he : n.ip.addr / n.size * n.size = n.size * (a.addr / n.size) := by
        rw [← hdiv]; ring
      omega
  · rintro ⟨hf, hlo, hhi⟩
    refine ⟨hf.symm, ?_⟩
    exact Nat.div_eq_of_lt_le hlo (by
      have : (n.ip.addr / n.size + 1) * n.size = n.ip.addr / n.size * n.size + n.size := by
        ring
      omega)

/-- The subnet iterator as a `range'` of raw addresses. -/
theorem IpNetwork.iter_eq_range' (n : IpNetwork) :
    n.iter = (List.range' n.network n.size).map fun k => ⟨n.ip.fam, k⟩ := by
  rw [IpNetwork.iter, List.range'_eq_map_range, List.map_map]
  rfl

/-- The in-window filter over a `range'` covering the window is the
`range'` of the window. -/
theorem filter_range'_window (a n lo hi : Nat) (hlo : a ≤ lo)
    (hhi : hi < a + n) (hle : lo ≤ hi) :
    ((List.range' a n).filter fun k => decide (lo ≤ k) && decide (k ≤ hi))
      = List.range' lo (hi + 1 - lo) := by
  have h1 : List.range' a n
      = List.range' a (lo - a)
        ++ (List.range' lo (hi + 1 - lo)
            ++ List.range' (hi + 1) (n - (lo - a) - (hi + 1 - lo))) := by
    have e1 := List.range'_append lo (hi + 1 - lo) (n - (lo - a) - (hi + 1 - lo)) 1
    have e2 := List.range'_append a (lo - a) (n - (lo - a)) 1
    simp only [Nat.one_mul] at e1 e2
    have hx : lo + (hi + 1 - lo) = hi + 1 := by omega
    have hy : a + (lo - a) = lo := by omega
    rw [hx] at e1
    rw [hy] at e2
    have hz : n - (lo - a) - (hi + 1 - lo) + (hi + 1 - lo) = n - (lo - a) := by
      omega
    rw [hz] at e1
    have hw : n - (lo - a) + (lo - a) = n := by omega
    rw [hw] at e2
    calc List.range' a n
        = List.range' a (lo - a) ++ List.range' lo (n - (lo - a)) := e2.symm
      _ = List.range' a (lo - a)
          ++ (List.range' lo (hi + 1 - lo)
              ++ List.range' (hi + 1) (n - (lo - a) - (hi + 1 - lo))) := by
        rw [e1]
  rw [h1, List.filter_append, List.filter_append]
  have hnil1 : (List.range' a (lo - a)).filter
      (fun k => decide (lo ≤ k) && decide (k ≤ hi)) = [] := by
    rw [List.filter_eq_nil_iff]
    intro k hk
    rw [List.mem_range'_1] at hk
    simp only [Bool.and_eq_true, decide_eq_true_eq]
    omega
  have hnil3 : (List.range' (hi + 1) (n - (lo - a) - (hi + 1 - lo))).filter
      (fun k => decide (lo ≤ k) && decide (k ≤ hi)) = [] := by
    rw [List.filter_eq_nil_iff]
    intro k hk
    rw [List.mem_range'_1] at hk
    simp only [Bool.and_eq_true, decide_eq_true_eq]
    omega
  have hself : (List.range' lo (hi + 1 - lo)).filter
      (fun k => decide (lo ≤ k) && decide (k ≤ hi)) = List.range' lo (hi + 1 - lo) := by
    rw [List.filter_eq_self]
    intro k hk
    rw [List.mem_range'_1] at hk
    simp only [Bool.and_eq_true, decide_eq_true_eq]
    omega
  rw [hnil1, hnil3, hself, List.nil_append, List.append_nil]

/-- Length after removing one designated value from a duplicate-free
ascending window. -/
theorem length_filter_ne_range' (lo len g : Nat) :
    ((List.range' lo len).filter fun k => !(k == g)).length
      = len - (if lo ≤ g ∧ g < lo + len then 1 else 0) := by
  induction len generalizing lo with
  | zero =>
    have h0 : ¬(lo ≤ g ∧ g < lo + 0) := by omega
    simp [h0]
  | succ m ih =>
    rw [List.range'_succ lo m 1, List.filter_cons]
    by_cases hg : lo = g
    · subst hg
      have hb : (!(lo == lo)) = false := by simp
      rw [hb, if_neg (by simp), ih (lo + 1)]
      have h1 : ¬(lo + 1 ≤ lo ∧ lo < lo + 1 + m) := by omega
      have h2 : lo ≤ lo ∧ lo < lo + (m + 1) := by omega
      rw [if_neg h1, if_pos h2]
      omega
    · have hb : (!(lo == g)) = true := by simp [hg]
      rw [hb, if_pos rfl, List.length_cons, ih (lo + 1)]
      by_cases hin : lo + 1 ≤ g ∧ g < lo + 1 + m
      · have h2 : lo ≤ g ∧ g < lo + (m + 1) := by omega
        rw [if_pos hin, if_pos h2]
        omega
      · have h2 : ¬(lo ≤ g ∧ g < lo + (m + 1)) := by omega
        rw [if_neg hin, if_neg h2]
        omega

/-- `ltb` within one family is numeric comparison. -/
theorem IpAddr.ltb_fam_eq (a b : IpAddr) (h : a.fam = b.fam) :
    a.ltb b = decide (a.addr < b.addr) := by
  obtain ⟨af, aa⟩ := a
  obtain ⟨bf, ba⟩ := b
  simp only at h
  subst h
  cases af <;> rfl

/-- Any v4 address is `ltb` any v6 address. -/
theorem IpAddr.ltb_v4_v6 (a b : IpAddr) (ha : a.fam = .v4) (hb : b.fam = .v6) :
    a.ltb b = true := by
  obtain ⟨af, aa⟩ := a
  obtain ⟨bf, ba⟩ := b
  simp only at ha hb
  subst ha
  subst hb
  rfl

/-- No v6 address is `ltb` a v4 address. -/
theorem IpAddr.ltb_v6_v4 (a b : IpAddr) (ha : a.fam = .v6) (hb : b.fam = .v4) :
    a.ltb b = false := by
  obtain ⟨af, aa⟩ := a
  obtain ⟨bf, ba⟩ := b
  simp only at ha hb
  subst ha
  subst hb
  rfl

/-- Structural `==` on addresses splits into family and numeric parts. -/
theorem IpAddr.beq_mk (F : IpFamily) (k : Nat) (g : IpAddr) :
    (IpAddr.mk F k == g) = (F == g.fam && k == g.addr) := by
  obtain ⟨gf, ga⟩ := g
  rw [Bool.eq_iff_iff]
  simp [IpAddr.mk.injEq]

/-- **C6.** For every `IpRange` whose `rangeStart` and `rangeEnd` both lie
within the subnet and satisfy `rangeStart ≤ rangeEnd` (in Rust's `IpAddr`
order, `¬(end < start)`), `iter_free` yields only IPs in the inclusive
interval `[rangeStart, rangeEnd]`, yields no IP equal to the gateway,
yields each IP as a CIDR with the subnet's prefix length, and the number
of yielded IPs is the size of the interval minus one exactly when the
gateway lies inside the interval (minus zero otherwise). -/
theorem C6_iter_free_window (r : IpRange) (s e : IpAddr)
    (hs : r.range_start = some s) (he : r.range_end = some e)
    (hin_s : r.subnet.contains s = true) (hin_e : r.subnet.contains e = true)
    (hse : e.ltb s = false) :
    (∀ pr ∈ r.iter_free, pr.1.ip.ltb s = false ∧ e.ltb pr.1.ip = false)
    ∧ (∀ pr ∈ r.iter_free, r.gateway ≠ some pr.1.ip)
    ∧ (∀ pr ∈ r.iter_free, pr.1.prefixLen = r.subnet.prefixLen)
    ∧ r.iter_free.length
        = (e.addr + 1 - s.addr)
          - (match r.gateway with
            | some g => if g.ltb s = false ∧ e.ltb g = false then 1 else 0
            | none => 0) := by
  obtain ⟨hfs, hlos, hhis⟩ := (IpNetwork.contains_iff _ _).mp hin_s
  obtain ⟨hfe, hloe, hhie⟩ := (IpNetwork.contains_iff _ _).mp hin_e
  have hse' : s.addr ≤ e.addr := by
    have := IpAddr.ltb_fam_eq e s (hfe.trans hfs.symm)
    rw [this] at hse
    simpa using hse
  refine ⟨?_, ?_, ?_, ?_⟩
  · rintro ⟨cidr, rng⟩ hpr
    obtain ⟨ip, hmem, hmk⟩ := List.mem_map.mp hpr
    obtain ⟨-, hfilt⟩ := List.mem_filter.mp hmem
    rw [IpRange.freeFilter, hs, he] at hfilt
    simp only [Bool.and_eq_true, Bool.not_eq_true'] at hfilt
    obtain ⟨⟨h1, h2⟩, -⟩ := hfilt
    cases hmk
    exact ⟨h1, h2⟩
  · rintro ⟨cidr, rng⟩ hpr
    obtain ⟨ip, hmem, hmk⟩ := List.mem_map.mp hpr
    obtain ⟨-, hfilt⟩ := List.mem_filter.mp hmem
    rw [IpRange.freeFilter, hs, he] at hfilt
    cases hgw : r.gateway with
    | none => simp
    | some g =>
      rw [hgw] at hfilt
      simp only [Bool.and_eq_true, Bool.not_eq_true', beq_eq_false_iff_ne,
        ne_eq] at hfilt
      obtain ⟨-, hneq⟩ := hfilt
      cases hmk
      intro hcontra
      exact hneq (Option.some.inj hcontra).symm
  · rintro ⟨cidr, rng⟩ hpr
    obtain ⟨ip, hmem, hmk⟩ := List.mem_map.mp hpr
    cases hmk
    rfl
  · rw [IpRange.iter_free, List.length_map, IpNetwork.iter_eq_range',
      List.filter_map, List.length_map]
    set F := r.subnet.ip.fam with hF
    set net := r.subnet.network with hnet
    set sz := r.subnet.size with hsz
    have hwinfun : ∀ k : Nat,
        (r.freeFilter ∘ fun k => IpAddr.mk F k) k
          = ((match r.gateway with
              | some g => if g.fam = F then !(k == g.addr) else true
              | none => true)
            && (decide (s.addr ≤ k) && decide (k ≤ e.addr))) := by
      intro k
      simp only [Function.comp_apply, IpRange.freeFilter, hs, he]
      have e1 : (IpAddr.mk F k).ltb s = decide (k < s.addr) :=
        IpAddr.ltb_fam_eq _ _ (by simpa using hfs.symm)
      have e2 : e.ltb (IpAddr.mk F k) = decide (e.addr < k) :=
        IpAddr.ltb_fam_eq _ _ (by simpa using hfe)
      rw [e1, e2]
      cases hgw : r.gateway with
      | none =>
        rw [Bool.eq_iff_iff]
        simp only [Bool.and_eq_true, Bool.not_eq_true', decide_eq_true_eq,
          decide_eq_false_iff_not, Nat.not_lt]
        tauto
      | some g =>
        rw [Bool.eq_iff_iff]
        by_cases hgf : g.fam = F
        · simp only [IpAddr.beq_mk, hgf, beq_self_eq_true, Bool.true_and,
            eq_self_iff_true, if_true, Bool.and_eq_true, Bool.not_eq_true',
            decide_eq_true_eq, decide_eq_false_iff_not, Nat.not_lt,
            beq_eq_false_iff_ne, ne_eq]
          tauto
        · have hne : ¬(F = g.fam) := fun hc => hgf hc.symm
          have hFb : (F == g.fam) = false := by simp [hne]
          simp only [IpAddr.beq_mk, if_neg hgf, hFb, Bool.false_and,
            Bool.not_false, Bool.true_and, Bool.and_true, Bool.and_eq_true,
            Bool.not_eq_true', decide_eq_true_eq, decide_eq_false_iff_not,
            Nat.not_lt]
    rw [List.filter_congr fun k _ => hwinfun k, ← List.filter_filter,
      filter_range'_window net sz s.addr e.addr hlos hhie hse']
    cases hgw : r.gateway with
    | none =>
      simp
    | some g =>
      by_cases hgf : g.fam = F
      · simp only [if_pos hgf]
        rw [length_filter_ne_range']
        have hiff : (s.addr ≤ g.addr ∧ g.addr < s.addr + (e.addr + 1 - s.addr))
            ↔ (g.ltb s = false ∧ e.ltb g = false) := by
          rw [IpAddr.ltb_fam_eq g s (hgf.trans hfs.symm),
            IpAddr.ltb_fam_eq e g (hfe.trans hgf.symm)]
          simp only [decide_eq_false_iff_not, Nat.not_lt]
          omega
        by_cases hin : g.ltb s = false ∧ e.ltb g = false
        · rw [if_pos (hiff.mpr hin), if_pos hin]
        · rw [if_neg (fun hc => hin (hiff.mp hc)), if_neg hin]
      · simp only [if_neg hgf]
        rw [List.filter_eq_self.mpr fun _ _ => rfl, List.length_range']
        have hnotin : ¬(g.ltb s = false ∧ e.ltb g = false) := by
          cases hFv : F with
          | v4 =>
            cases hgv : g.fam with
            | v4 => exact absurd (hgv.trans hFv.symm) hgf
            | v6 =>
              rintro ⟨-, h2⟩
              rw [IpAddr.ltb_v4_v6 e g (hfe.trans hFv) hgv] at h2
              exact Bool.noConfusion h2
          | v6 =>
            cases hgv : g.fam with
            | v6 => exact absurd (hgv.trans hFv.symm) hgf
            | v4 =>
              rintro ⟨h1, -⟩
              rw [IpAddr.ltb_v4_v6 g s hgv (hfs.trans hFv)] at h1
              exact Bool.noConfusion h1
        rw [if_neg hnotin]
        omega

/-- Witness for C6 at the pool `10.0.0.0/29` with range `[.2, .6]` and
gateway `.4`: five addresses in the window minus the gateway. -/
theorem C6_iter_free_window_witness :
    (∀ pr ∈ (IpRange.mk ⟨v4 10 0 0 0, 29⟩ (some (v4 10 0 0 2))
        (some (v4 10 0 0 6)) (some (v4 10 0 0 4))).iter_free,
      pr.1.ip.ltb (v4 10 0 0 2) = false ∧ (v4 10 0 0 6).ltb pr.1.ip = false)
    ∧ (∀ pr ∈ (IpRange.mk ⟨v4 10 0 0 0, 29⟩ (some (v4 10 0 0 2))
        (some (v4 10 0 0 6)) (some (v4 10 0 0 4))).iter_free,
      (IpRange.mk ⟨v4 10 0 0 0, 29⟩ (some (v4 10 0 0 2))
        (some (v4 10 0 0 6)) (some (v4 10 0 0 4))).gateway ≠ some pr.1.ip)
    ∧ (∀ pr ∈ (IpRange.mk ⟨v4 10 0 0 0, 29⟩ (some (v4 10 0 0 2))
        (some (v4 10 0 0 6)) (some (v4 10 0 0 4))).iter_free,
      pr.1.prefixLen = 29)
    ∧ (IpRange.mk ⟨v4 10 0 0 0, 29⟩ (some (v4 10 0 0 2))
        (some (v4 10 0 0 6)) (some (v4 10 0 0 4))).iter_free.length
        = ((v4 10 0 0 6).addr + 1 - (v4 10 0 0 2).addr)
          - (match (IpRange.mk ⟨v4 10 0 0 0, 29⟩ (some (v4 10 0 0 2))
              (some (v4 10 0 0 6)) (some (v4 10 0 0 4))).gateway with
            | some g =>
              if g.ltb (v4 10 0 0 2) = false ∧ (v4 10 0 0 6).ltb g = false
                then 1 else 0
            | none => 0) :=
  C6_iter_free_window
    (IpRange.mk ⟨v4 10 0 0 0, 29⟩ (some (v4 10 0 0 2)) (some (v4 10 0 0 6))
      (some (v4 10 0 0 4)))
    (v4 10 0 0 2) (v4 10 0 0 6) rfl rfl (by decide) (by decide) (by decide)

/-! ## Lemmas for the allocator -/

/-- The head of a filtered list is the first element satisfying the
predicate. -/
theorem head?_filter {α : Type} (p : α → Bool) (l : List α) :
    (l.filter p).head? = l.find? p := by
  induction l with
  | nil => rfl
  | cons x xs ih =>
    by_cases h : p x <;> simp [List.filter_cons, List.find?_cons, h, ih]

/-- `parse_value` preserves the key and the CAS token. -/
theorem ConsulPair.parse_value_key {T : Type}
    (decode : String → Except String T) (p p' : ConsulPair T)
    (h : p.parse_value decode = .ok p') :
    p'.key = p.key ∧ p'.modifyIndex = p.modifyIndex := by
  unfold ConsulPair.parse_value at h
  split at h
  · cases h
    exact ⟨rfl, rfl⟩
  · cases h
    exact ⟨rfl, rfl⟩
  · rename_i raw heq
    cases hd : decode raw with
    | error e =>
      rw [hd] at h
      cases h
    | ok v =>
      rw [hd] at h
      cases h
      exact ⟨rfl, rfl⟩

/-- A successful `pool_known` entry's IP is the parse of the last
`/`-segment of the pair's key. -/
theorem poolKnownEntry_ok_ip (decodeEntry : String → Except String PoolEntry)
    (ipFromStr : String → Option IpAddr) (pair : ConsulPair PoolEntry)
    (y : IpAddr × KnownPoolEntry)
    (h : poolKnownEntry decodeEntry ipFromStr pair = .ok y) :
    ipFromStr (lastSegment pair.key) = some y.1 := by
  unfold poolKnownEntry at h
  cases hpv : pair.parse_value decodeEntry with
  | error e =>
    rw [hpv] at h
    simp [Except.mapError, Bind.bind, Except.bind] at h
  | ok p' =>
    obtain ⟨hk, -⟩ := ConsulPair.parse_value_key decodeEntry pair p' hpv
    rw [hpv] at h
    simp only [Except.mapError, Bind.bind, Except.bind] at h
    rw [hk] at h
    cases hip : ipFromStr (lastSegment pair.key) with
    | none =>
      rw [hip] at h
      cases h
    | some ip =>
      rw [hip] at h
      cases hval : p'.value with
      | null =>
        rw [hval] at h
        cases h
      | str raw =>
        rw [hval] at h
        cases h
      | parsed v =>
        rw [hval] at h
        cases h
        rfl

/-- Characterisation of a successful effectful traversal: every input maps
to some output and every output comes from some input. -/
theorem mapM_ok_char {α β : Type} (f : α → Except AppError β) (l : List α) :
    ∀ ys : List β, l.mapM f = Except.ok ys →
      (∀ x ∈ l, ∃ y ∈ ys, f x = Except.ok y)
      ∧ (∀ y ∈ ys, ∃ x ∈ l, f x = Except.ok y) := by
  induction l with
  | nil =>
    intro ys h
    rw [List.mapM_nil f] at h
    cases h
    simp
  | cons x xs ih =>
    intro ys h
    rw [List.mapM_cons f] at h
    cases hx : f x with
    | error e =>
      rw [hx] at h
      simp [Bind.bind, Except.bind] at h
    | ok a =>
      rw [hx] at h
      cases hxs : xs.mapM f with
      | error e =>
        rw [hxs] at h
        simp [Bind.bind, Except.bind, Functor.map, Except.map, Pure.pure,
          Except.pure] at h
      | ok as =>
        rw [hxs] at h
        simp only [Bind.bind, Except.bind, Functor.map, Except.map,
          Pure.pure, Except.pure] at h
        cases h
        obtain ⟨fwd, bwd⟩ := ih as hxs
        constructor
        · intro z hz
          rcases List.mem_cons.mp hz with hz | hz
          · subst hz
            exact ⟨a, List.mem_cons_self a as, hx⟩
          · obtain ⟨y, hy, hfy⟩ := fwd z hz
            exact ⟨y, List.mem_cons_of_mem _ hy, hfy⟩
        · intro y hy
          rcases List.mem_cons.mp hy with hy | hy
          · subst hy
            exact ⟨x, List.mem_cons_self x xs, hx⟩
          · obtain ⟨z, hz, hfz⟩ := bwd y hy
            exact ⟨z, List.mem_cons_of_mem _ hz, hfz⟩

/-- A fold of guarded overwrites over a list with no match keeps the
initial value. -/
theorem foldl_no_match {α β : Type} (p : α → Bool) (f : α → β)
    (l : List α) (h : ∀ x ∈ l, p x = false) :
    ∀ init, l.foldl (fun acc x => if p x then f x else acc) init = init := by
  induction l with
  | nil => intro init; rfl
  | cons x xs ih =>
    intro init
    rw [List.foldl_cons]
    have hx := h x (List.mem_cons_self x xs)
    rw [hx, if_neg (by simp)]
    exact ih (fun y hy => h y (List.mem_cons_of_mem _ hy)) init

/-- A fold of guarded overwrites over a list with exactly one match
returns that match's value (the loop keeps the last match; with a unique
match it is that one). -/
theorem foldl_single_match {α β : Type} (p : α → Bool) (f : α → β) (r : α) :
    ∀ (l : List α) (init : β), l.filter p = [r] →
      l.foldl (fun acc x => if p x then f x else acc) init = f r := by
  intro l
  induction l with
  | nil =>
    intro init h
    cases h
  | cons x xs ih =>
    intro init h
    rw [List.filter_cons] at h
    by_cases hx : p x
    · rw [if_pos hx] at h
      injection h with h1 h2
      subst h1
      rw [List.foldl_cons, if_pos hx]
      refine foldl_no_match p f xs (fun y hy => ?_) (f x)
      have := List.filter_eq_nil_iff.mp h2 y hy
      simpa using this
    · rw [if_neg hx] at h
      rw [List.foldl_cons, if_neg hx]
      exact ih init h

/-! ## C1: ADD with no requested IP -/

/-- **C1.** For every ADD invocation of the consul IPAM allocator with no
requested IP: (a) the taken set holds exactly the IPs parsed from the keys
of the non-null entries of the recursive KV listing of `ipam/<pool>/`;
(b) the chosen address is the first pair yielded by iterating the pool's
IPRanges in declared order via the free-IP iterator whose IP is not in
the taken set — it is PUT and returned in the reply's `ips`; (c) if no
such IP exists the invocation fails with the pool-full error, whose reply
code is 122, and performs no PUT. -/
theorem C1_add_no_requested (v : Version) (cid poolName : String)
    (pool : List IpRange)
    (decodeEntry : String → Except String PoolEntry)
    (ipFromStr : String → Option IpAddr)
    (pairs : List (ConsulPair PoolEntry))
    (known : List (IpAddr × KnownPoolEntry))
    (hknown : poolKnown decodeEntry ipFromStr pairs = .ok known) :
    (∀ ip, takenContains known ip = true ↔
      ∃ p ∈ pairs, p.value.cv_is_null = false ∧
        ipFromStr (lastSegment p.key) = some ip)
    ∧ (∀ pr, (pool.flatMap IpRange.iter_free).find?
          (fun q => !takenContains known q.1.ip) = some pr →
        ∀ putSuccess,
          (addFlow v cid poolName none pool decodeEntry ipFromStr pairs
            putSuccess).2
            = [⟨"v1/kv/ipam/" ++ poolName ++ "/" ++ pr.1.ip.display, true,
                cid⟩]
          ∧ replyIps (addFlow v cid poolName none pool decodeEntry
              ipFromStr pairs true).1 = some [⟨pr.1, pr.2.gateway, none⟩])
    ∧ ((pool.flatMap IpRange.iter_free).find?
          (fun q => !takenContains known q.1.ip) = none →
        ∀ putSuccess,
          (addFlow v cid poolName none pool decodeEntry ipFromStr pairs
            putSuccess)
            = (.error (.poolFull poolName), [])
          ∧ ((AppError.poolFull poolName).into_reply v).code = 122
          ∧ ((AppError.poolFull poolName).into_reply v).msg
              = "Pool is full") := by
  refine ⟨?_, ?_, ?_⟩
  · intro ip
    unfold poolKnown at hknown
    obtain ⟨fwd, bwd⟩ := mapM_ok_char _ _ _ hknown
    constructor
    · intro htaken
      obtain ⟨kv, hkv, hbeq⟩ := List.any_eq_true.mp htaken
      have hip : kv.1 = ip := by simpa using hbeq
      obtain ⟨q, hq, hfq⟩ := bwd kv hkv
      obtain ⟨hqmem, hqnull⟩ := List.mem_filter.mp hq
      refine ⟨q, hqmem, by simpa using hqnull, ?_⟩
      rw [← hip]
      exact poolKnownEntry_ok_ip decodeEntry ipFromStr q kv hfq
    · rintro ⟨q, hqmem, hqnull, hqparse⟩
      have hq : q ∈ pairs.filter fun p => !p.value.cv_is_null :=
        List.mem_filter.mpr ⟨hqmem, by simpa using hqnull⟩
      obtain ⟨y, hy, hfy⟩ := fwd q hq
      have := poolKnownEntry_ok_ip decodeEntry ipFromStr q y hfy
      rw [hqparse] at this
      have hyip : y.1 = ip := by
        injection this.symm
      exact List.any_eq_true.mpr ⟨y, hy, by simp [hyip]⟩
  · intro pr hfind putSuccess
    have hhead : ((pool.flatMap IpRange.iter_free).filter
        fun q => !takenContains known q.1.ip).head? = some pr := by
      rw [head?_filter]
      exact hfind
    constructor
    · simp only [addFlow, hknown, hhead]
      cases putSuccess <;> rfl
    · simp only [addFlow, hknown, hhead, replyIps, if_true]
  · intro hfind putSuccess
    have hhead : ((pool.flatMap IpRange.iter_free).filter
        fun q => !takenContains known q.1.ip).head? = none := by
      rw [head?_filter]
      exact hfind
    refine ⟨?_, rfl, rfl⟩
    simp only [addFlow, hknown, hhead]

/-! ## C2: ADD with a requested IP -/

/-- **C2.** For every ADD invocation of the consul IPAM allocator with a
requested IP: if exactly one IPRange of the pool definition has a subnet
containing that IP, the allocator PUTs the requested IP (without `cas=0`)
and replies with it as a CIDR carrying that subnet's prefix length and
that range's gateway; if no range contains it, the invocation fails with
the IP-not-in-pool error, whose reply code is 124 and msg
"IP not in pool", and performs no KV write. -/
theorem C2_add_requested (v : Version) (cid poolName : String) (ip : IpAddr)
    (pool : List IpRange) (r : IpRange)
    (decodeEntry : String → Except String PoolEntry)
    (ipFromStr : String → Option IpAddr)
    (pairs : List (ConsulPair PoolEntry)) :
    ((pool.filter fun rg => rg.subnet.contains ip) = [r] →
      ∀ putSuccess,
        (addFlow v cid poolName (some ip) pool decodeEntry ipFromStr pairs
          putSuccess).2
          = [⟨"v1/kv/ipam/" ++ poolName ++ "/" ++ ip.display, false, cid⟩]
        ∧ replyIps (addFlow v cid poolName (some ip) pool decodeEntry
            ipFromStr pairs true).1
          = some [⟨⟨ip, r.subnet.prefixLen⟩, r.gateway, none⟩])
    ∧ ((∀ rg ∈ pool, rg.subnet.contains ip = false) →
      ∀ putSuccess,
        (addFlow v cid poolName (some ip) pool decodeEntry ipFromStr pairs
          putSuccess)
          = (.error (.notInPool poolName ip), [])
        ∧ ((AppError.notInPool poolName ip).into_reply v).code = 124
        ∧ ((AppError.notInPool poolName ip).into_reply v).msg
            = "IP not in pool") := by
  constructor
  · intro huniq putSuccess
    have hfold := foldl_single_match (fun rg : IpRange => rg.subnet.contains ip)
      (fun rg => (some rg.subnet.prefixLen, rg.gateway)) r pool
      ((none : Option Nat), (none : Option IpAddr)) huniq
    constructor
    · simp only [addFlow, hfold]
      cases putSuccess <;> rfl
    · simp only [addFlow, hfold, replyIps, if_true]
  · intro hnone putSuccess
    have hfold := foldl_no_match (fun rg : IpRange => rg.subnet.contains ip)
      (fun rg => (some rg.subnet.prefixLen, rg.gateway)) pool hnone
      ((none : Option Nat), (none : Option IpAddr))
    refine ⟨?_, rfl, rfl⟩
    simp only [addFlow, hfold]

/-- **C3 counterexample.** On the pool `[{subnet: 10.0.0.0/29, gateway:
10.0.0.1}]` with no existing KV entries, the allocator PUTs
`ipam/v4/10.0.0.0` — the subnet's network address, which the free-IP
iterator does not skip — and replies with `10.0.0.0/29`, not the
`10.0.0.2` the claim states. -/
theorem C3_counterexample :
    (addFlow v100 "abc1" "v4" none scenarioPool noDecode noIpParse []
        true).2
      = [⟨"v1/kv/ipam/v4/10.0.0.0", true, "abc1"⟩]
    ∧ ((addFlow v100 "abc1" "v4" none scenarioPool noDecode noIpParse []
        true).2
      ≠ [⟨"v1/kv/ipam/v4/10.0.0.2", true, "abc1"⟩])
    ∧ replyIps (addFlow v100 "abc1" "v4" none scenarioPool noDecode
        noIpParse [] true).1
      ≠ some [⟨⟨v4 10 0 0 2, 29⟩, some (v4 10 0 0 1), none⟩] :=
  ⟨by decide, by decide, by decide⟩

/-- **C3 (amended).** For the pool definition `[{subnet: "10.0.0.0/29",
gateway: "10.0.0.1"}]` with no existing allocation entries, an ADD
without a requested IP picks `10.0.0.0` as the first free IP (the
free-IP sequence skips only the gateway and the range bounds, not the
subnet's network or broadcast addresses), writes the allocation to
`ipam/v4/10.0.0.0` with `cas=0`, and replies with
`ips: [{address: "10.0.0.0/29", gateway: "10.0.0.1"}]` and exit code 0. -/
theorem C3_amended :
    (addFlow v100 "abc1" "v4" none scenarioPool noDecode noIpParse []
        true).2
      = [⟨"v1/kv/ipam/v4/10.0.0.0", true, "abc1"⟩]
    ∧ replyIps (addFlow v100 "abc1" "v4" none scenarioPool noDecode
        noIpParse [] true).1
      = some [⟨⟨v4 10 0 0 0, 29⟩, some (v4 10 0 0 1), none⟩]
    ∧ (IpNetwork.mk (v4 10 0 0 0) 29).display = "10.0.0.0/29"
    ∧ (v4 10 0 0 1).display = "10.0.0.1"
    ∧ appExitCode (addFlow v100 "abc1" "v4" none scenarioPool noDecode
        noIpParse [] true).1 v100 = 0 :=
  ⟨by decide, by decide, by decide, by decide, rfl⟩

/-- Witness for C1 on the scenario pool with `10.0.0.2` taken and a
tombstone filtered out. -/
theorem C1_add_no_requested_witness :
    (∀ ip, takenContains [(v4 10 0 0 2, ⟨"t1", 7⟩)] ip = true ↔
      ∃ p ∈ wPairs, p.value.cv_is_null = false ∧
        wIpParse (lastSegment p.key) = some ip)
    ∧ (∀ pr, (scenarioPool.flatMap IpRange.iter_free).find?
          (fun q => !takenContains [(v4 10 0 0 2, ⟨"t1", 7⟩)] q.1.ip)
          = some pr →
        ∀ putSuccess,
          (addFlow v100 "abc1" "v4" none scenarioPool wDecode wIpParse
            wPairs putSuccess).2
            = [⟨"v1/kv/ipam/" ++ "v4" ++ "/" ++ pr.1.ip.display, true,
                "abc1"⟩]
          ∧ replyIps (addFlow v100 "abc1" "v4" none scenarioPool wDecode
              wIpParse wPairs true).1
            = some [⟨pr.1, pr.2.gateway, none⟩])
    ∧ ((scenarioPool.flatMap IpRange.iter_free).find?
          (fun q => !takenContains [(v4 10 0 0 2, ⟨"t1", 7⟩)] q.1.ip)
          = none →
        ∀ putSuccess,
          (addFlow v100 "abc1" "v4" none scenarioPool wDecode wIpParse
            wPairs putSuccess)
            = (.error (.poolFull "v4"), [])
          ∧ ((AppError.poolFull "v4").into_reply v100).code = 122
          ∧ ((AppError.poolFull "v4").into_reply v100).msg
              = "Pool is full") :=
  C1_add_no_requested v100 "abc1" "v4" scenarioPool wDecode wIpParse wPairs
    [(v4 10 0 0 2, ⟨"t1", 7⟩)] rfl

/-- Witness for C2: requested IP `10.0.0.5` inside the scenario pool is
honoured at prefix 29 with gateway `10.0.0.1` (spec scenario 2), and the
out-of-pool request `10.1.0.5` fails with code 124 and no PUT (spec
scenario 3). -/
theorem C2_add_requested_witness :
    ((addFlow v100 "abc1" "v4" (some (v4 10 0 0 5)) scenarioPool noDecode
        noIpParse [] true).2
      = [⟨"v1/kv/ipam/v4/10.0.0.5", false, "abc1"⟩])
    ∧ replyIps (addFlow v100 "abc1" "v4" (some (v4 10 0 0 5)) scenarioPool
        noDecode noIpParse [] true).1
      = some [⟨⟨v4 10 0 0 5, 29⟩, some (v4 10 0 0 1), none⟩]
    ∧ (addFlow v100 "abc1" "v4" (some (v4 10 1 0 5)) scenarioPool noDecode
        noIpParse [] true)
      = (.error (.notInPool "v4" (v4 10 1 0 5)), [])
    ∧ ((AppError.notInPool "v4" (v4 10 1 0 5)).into_reply v100).code
        = 124 := by
  have hA := (C2_add_requested v100 "abc1" "v4" (v4 10 0 0 5) scenarioPool
    ⟨⟨v4 10 0 0 0, 29⟩, none, none, some (v4 10 0 0 1)⟩ noDecode noIpParse
    []).1 (by decide) true
  have hB := (C2_add_requested v100 "abc1" "v4" (v4 10 1 0 5) scenarioPool
    ⟨⟨v4 10 0 0 0, 29⟩, none, none, some (v4 10 0 0 1)⟩ noDecode noIpParse
    []).2 (by decide) true
  exact ⟨hA.1, hA.2, hB.1, hB.2.1⟩

/-- **C8.** For every VERSION invocation, the reply's
`supportedVersions` contains both statically supported versions `0.4.0`
and `1.0.0`, and contains the incoming `cniVersion` exactly when it
satisfies the compatible range `=0.4.0 || ^1.0.0`; the reply echoes the
incoming version and the process exits with code 0. -/
theorem C8_version_reply (v : Version) :
    (⟨0, 4, 0, ""⟩ : Version) ∈ (handle_version v).supportedVersions
    ∧ (⟨1, 0, 0, ""⟩ : Version) ∈ (handle_version v).supportedVersions
    ∧ (v ∈ (handle_version v).supportedVersions ↔
        compatibleMatches v = true)
    ∧ (handle_version v).cniVersion = v
    ∧ (handle_version v).exitCode = 0 := by
  have hbase : ∀ w ∈ SUPPORTED_VERSIONS, compatibleMatches w = true := by
    decide
  have hcv : (match check_version v with
      | Except.ok _ => true
      | Except.error _ => false) = compatibleMatches v := by
    unfold check_version
    cases hc : compatibleMatches v <;> simp [hc]
  refine ⟨?_, ?_, ?_, rfl, rfl⟩
  · simp only [handle_version, hcv]
    by_cases h : (compatibleMatches v && !SUPPORTED_VERSIONS.contains v)
        = true
    · rw [if_pos h]
      exact List.mem_append_left _ (by decide)
    · rw [if_neg h]
      decide
  · simp only [handle_version, hcv]
    by_cases h : (compatibleMatches v && !SUPPORTED_VERSIONS.contains v)
        = true
    · rw [if_pos h]
      exact List.mem_append_left _ (by decide)
    · rw [if_neg h]
      decide
  · simp only [handle_version, hcv]
    by_cases hc : compatibleMatches v = true
    · by_cases hm : v ∈ SUPPORTED_VERSIONS
      · have hmc : SUPPORTED_VERSIONS.contains v = true := by
          simpa using hm
        rw [hc, hmc]
        simp [hm]
      · have hmc : SUPPORTED_VERSIONS.contains v = false := by
          simpa using hm
        rw [hc, hmc]
        simp
    · have hv : v ∉ SUPPORTED_VERSIONS := fun hmem => by
        rw [hbase v hmem] at hc
        exact hc rfl
      have hc' : compatibleMatches v = false := by
        simpa using hc
      rw [hc']
      simp [hv]

/-- **C7.** For every ADD, DEL, or CHECK invocation whose environment is
otherwise well-formed but whose input config `cniVersion` does not
satisfy the compatible range `=0.4.0 || ^1.0.0`, loading stops at the
version check (before the remaining environment is even read) with an
error reply whose code is 1 and msg "Incompatible CNI version"; the
process exits with that code, and the reply's `cniVersion` is the
plugin's own highest supported version `1.0.0`, not the input version. -/
theorem C7_incompatible_version (env : CniEnv)
    (parseConfig : String → Except String NetworkConfig)
    (parseVersionPayload : String → Except String Version)
    (cfg : NetworkConfig) (cid : String)
    (hcmd : env.command = some "ADD" ∨ env.command = some "DEL"
      ∨ env.command = some "CHECK")
    (hpay : ¬env.stdinPayload = "")
    (hcid : env.containerId = some cid)
    (hcidok : checkContainerId cid = .ok ())
    (hparse : parseConfig env.stdinPayload = .ok cfg)
    (hver : compatibleMatches cfg.cniVersion = false) :
    load env parseConfig parseVersionPayload
      = .errorReply ⟨⟨1, 0, 0, ""⟩, 1, "Incompatible CNI version",
          "plugin does not understand CNI version: "
            ++ cfg.cniVersion.display⟩
    ∧ ((CniError.incompatible cfg.cniVersion).into_reply
        ⟨1, 0, 0, ""⟩).code = 1 := by
  have hchk : check_version cfg.cniVersion
      = .error (.incompatible cfg.cniVersion) := by
    unfold check_version
    rw [hver]
    rfl
  constructor
  · unfold load from_env
    rw [if_neg hpay]
    rcases hcmd with hcmd | hcmd | hcmd <;>
      simp only [hcmd, requireCommand, parseCommand, hcid, requireString,
        hcidok, hparse, hchk, CniError.into_reply, CniError.display]
  · rfl

/-- Witness for C7 at the spec's scenario 6 (`cniVersion: "0.3.0"`). -/
theorem C7_incompatible_version_witness :
    load wEnv wParseConfig wParseVersion
      = .errorReply ⟨⟨1, 0, 0, ""⟩, 1, "Incompatible CNI version",
          "plugin does not understand CNI version: "
            ++ (Version.mk 0 3 0 "").display⟩
    ∧ ((CniError.incompatible ⟨0, 3, 0, ""⟩).into_reply
        ⟨1, 0, 0, ""⟩).code = 1 :=
  C7_incompatible_version wEnv wParseConfig wParseVersion wCfg "abc1"
    (Or.inl rfl) (by decide) rfl rfl rfl rfl

/-- **C10.** For every invocation of the nomad IPAM selector whose
container id starts with `cnitool-`, the orchestrator allocation endpoint
is queried with the hardcoded test allocation id
`ae999124-a427-2e89-f763-a8742900854b` instead of the container id; for
every other container id, the container id itself is the allocation
id. -/
theorem C10_nomad_alloc_id (cid : String) :
    (strStartsWith cid "cnitool-" = true →
      allocationPath cid
        = "v1/allocation/ae999124-a427-2e89-f763-a8742900854b")
    ∧ (strStartsWith cid "cnitool-" = false →
      allocationPath cid = "v1/allocation/" ++ cid) := by
  constructor <;> intro h <;> simp [allocationPath, nomadAllocId, h]

/-- Witness for C10: one `cnitool-` container id and one ordinary one. -/
theorem C10_nomad_alloc_id_witness :
    allocationPath "cnitool-test"
      = "v1/allocation/ae999124-a427-2e89-f763-a8742900854b"
    ∧ allocationPath "abc1" = "v1/allocation/abc1" :=
  ⟨(C10_nomad_alloc_id "cnitool-test").1 (by decide),
    (C10_nomad_alloc_id "abc1").2 (by decide)⟩

/-- **C4 counterexample.** ADD call with empty stdout (the original
failure is `MissingOutput`) whose cleanup DEL fails with an I/O error:
the driver returns the wrapped cleanup failure, not the original one —
the cleanup failure masks the original error, contrary to the claim. -/
theorem C4_counterexample :
    delegate "myipam" Command.add (.ok ()) (.ok (true, ""))
      (.error (.io "cleanup boom")) unusedParse
      = (.error (.delegated "myipam" (.io "cleanup boom")),
        [Command.add, Command.del])
    ∧ ((.error (.delegated "myipam" (.io "cleanup boom")),
          [Command.add, Command.del]) :
        Except CniError Unit × List Command)
      ≠ (.error (.delegated "myipam" .missingOutput),
        [Command.add, Command.del]) := by
  refine ⟨rfl, fun h => ?_⟩
  injection h with h1 h2
  injection h1 with h3
  injection h3 with h4 h5
  cases h5

/-- **C4 (amended).** For every delegated sub-plugin call where the
original command is ADD and the call fails, the driver invokes the same
sub-plugin with DEL and the same serialized config before reporting an
error. Only in the spawn/IO-failure mode is the cleanup call's outcome
discarded so that the original error is reported; in the empty-stdout
and non-zero-exit modes, a failing cleanup DEL is wrapped and returned
in place of the original failure. -/
theorem C4_amended {S : Type} (sub : String)
    (firstRun cleanupRun : Except CniError (Bool × String))
    (parse : String → Except String S) :
    (∀ e, firstRun = .error e →
      delegate sub Command.add (.ok ()) firstRun cleanupRun parse
        = (.error (.delegated sub e), [Command.add, Command.del]))
    ∧ (∀ st, firstRun = .ok (st, "") →
      (∀ e2, cleanupRun = .error e2 →
        delegate sub Command.add (.ok ()) firstRun cleanupRun parse
          = (.error (.delegated sub e2), [Command.add, Command.del]))
      ∧ (∀ ok2, cleanupRun = .ok ok2 →
        delegate sub Command.add (.ok ()) firstRun cleanupRun parse
          = (.error (.delegated sub .missingOutput),
            [Command.add, Command.del])))
    ∧ (∀ out, ¬out = "" → firstRun = .ok (false, out) →
      (∀ e2, cleanupRun = .error e2 →
        delegate sub Command.add (.ok ()) firstRun cleanupRun parse
          = (.error (.delegated sub e2), [Command.add, Command.del]))
      ∧ (∀ ok2, cleanupRun = .ok ok2 →
        delegate sub Command.add (.ok ()) firstRun cleanupRun parse
          = (.error (.delegated sub (.generic out)),
            [Command.add, Command.del]))) := by
  refine ⟨?_, ?_, ?_⟩
  · intro e h
    unfold delegate
    rw [h]
    rfl
  · intro st h
    constructor
    · intro e2 h2
      unfold delegate
      rw [h, h2]
      rfl
    · intro ok2 h2
      unfold delegate
      rw [h, h2]
      rfl
  · intro out hout h
    constructor
    · intro e2 h2
      unfold delegate
      rw [h, h2]
      simp only [if_neg hout, Bool.false_eq_true, if_false, if_pos rfl]
      rfl
    · intro ok2 h2
      unfold delegate
      rw [h, h2]
      simp only [if_neg hout, Bool.false_eq_true, if_false, if_pos rfl]
      rfl

/-- Witness for C4 (amended): a spawn failure reports the original error
with the cleanup invoked, and an empty-stdout failure with successful
cleanup reports `MissingOutput`. -/
theorem C4_amended_witness :
    delegate "myipam" Command.add (.ok ()) (.error (.io "spawn failed"))
      (.error (.io "ignored")) unusedParse
      = (.error (.delegated "myipam" (.io "spawn failed")),
        [Command.add, Command.del])
    ∧ delegate "myipam" Command.add (.ok ()) (.ok (true, ""))
      (.ok (true, "out")) unusedParse
      = (.error (.delegated "myipam" .missingOutput),
        [Command.add, Command.del]) :=
  ⟨(C4_amended "myipam" (.error (.io "spawn failed"))
      (.error (.io "ignored")) unusedParse).1 _ rfl,
    ((C4_amended "myipam" (.ok (true, "")) (.ok (true, "out"))
      unusedParse).2.1 true rfl).2 _ rfl⟩

/-- **C5 counterexample.** With delegates `[a, b, c]` and `c`'s ADD
failing, the driver DELs `a, b, c` — forward declaration order,
including the failed plugin itself — not `b, a` (the previously-succeeded
plugins in reverse order) as the claim states. -/
theorem C5_counterexample :
    (ipamDelegatedAdd ["a", "b", "c"] chainEnvC5 none).2
      = [("a", Command.add), ("b", Command.add), ("c", Command.add),
        ("a", Command.del), ("b", Command.del), ("c", Command.del)]
    ∧ (ipamDelegatedAdd ["a", "b", "c"] chainEnvC5 none).2
      ≠ [("a", Command.add), ("b", Command.add), ("c", Command.add),
        ("b", Command.del), ("a", Command.del)] :=
  ⟨rfl, by decide⟩

/-- The rollback loop always DELs exactly the plugins it is given, in
that order, whatever the DEL outcomes. -/
theorem undoLoop_log {S : Type}
    (env : String → Command → Option S → Except CniError S) :
    ∀ (l : List String) (prev : Option S) (errs : List (String × CniError)),
      (undoLoop env l prev errs).2 = l.map fun p => (p, Command.del) := by
  intro l
  induction l with
  | nil => intro prev errs; rfl
  | cons p ps ih =>
    intro prev errs
    unfold undoLoop
    cases env p .del prev <;> simp [ih]

/-- The ADD loop under a prefix of successes followed by a failure at
index `k`: the calls are the first `k+1` delegates ADDed in order, then —
prefixed by whatever was already on `undo` — the same `k+1` delegates
DELed in the same forward order. -/
theorem addLoop_fail_log {S : Type}
    (env : String → Command → Except CniError S) (e : CniError) :
    ∀ (rest : List String) (k : Nat) (dk : String) (undo : List String)
      (prev lastResult : Option S),
      rest.get? k = some dk →
      (∀ i < k, ∀ d, rest.get? i = some d → ∃ r, env d .add = .ok r) →
      env dk .add = .error e →
      ∃ err, addLoop (fun p c _ => env p c) rest prev lastResult undo
        = (.error err,
          ((rest.take (k + 1)).map fun d => (d, Command.add))
            ++ (undo ++ rest.take (k + 1)).map fun d => (d, Command.del)) := by
  intro rest
  induction rest with
  | nil =>
    intro k dk undo prev lastResult hk
    cases hk
  | cons p ps ih =>
    intro k dk undo prev lastResult hk hsucc hfail
    cases k with
    | zero =>
      cases hk
      refine ⟨multiError (undoLoop (fun p c _ => env p c) (undo ++ [p])
        prev [(p, e)]).1, ?_⟩
      unfold addLoop
      rw [hfail]
      simp [undoLoop_log]
    | succ k' =>
      obtain ⟨r, hr⟩ := hsucc 0 (Nat.succ_pos _) p rfl
      obtain ⟨err, herr⟩ := ih k' dk (undo ++ [p]) (some r) (some r) hk
        (fun i hi d hd => hsucc (i + 1) (Nat.succ_lt_succ hi) d hd) hfail
      refine ⟨err, ?_⟩
      unfold addLoop
      rw [hr]
      simp only [herr, List.take_succ_cons, List.map_cons, List.cons_append,
        List.append_assoc, List.singleton_append, List.nil_append]

/-- **C5 (amended).** For every ipam-delegated ADD over `ipam.delegates`
where the plugins before index `k` succeed and the `k`-th plugin's ADD
fails, the driver invokes DEL on the first `k+1` plugins — every
previously-succeeded plugin *and* the failing plugin itself — in the
original forward declaration order (not reverse), before the outer error
is reported. -/
theorem C5_rollback_order {S : Type} (delegates : List String)
    (env : String → Command → Except CniError S) (k : Nat) (dk : String)
    (e : CniError)
    (hk : delegates.get? k = some dk)
    (hsucc : ∀ i < k, ∀ d, delegates.get? i = some d →
      ∃ r, env d .add = .ok r)
    (hfail : env dk .add = .error e) :
    ∃ err, ipamDelegatedAdd delegates (fun p c _ => env p c) none
      = (.error err,
        ((delegates.take (k + 1)).map fun d => (d, Command.add))
          ++ (delegates.take (k + 1)).map fun d => (d, Command.del)) := by
  have hne : delegates.isEmpty = false := by
    cases delegates with
    | nil => cases hk
    | cons a l => rfl
  obtain ⟨err, herr⟩ := addLoop_fail_log env e delegates k dk [] none none
    hk hsucc hfail
  refine ⟨err, ?_⟩
  unfold ipamDelegatedAdd
  rw [hne]
  simpa using herr

/-- Witness for C5 (amended) on the `[a, b, c]` chain failing at `c`. -/
theorem C5_rollback_order_witness :
    ∃ err, ipamDelegatedAdd ["a", "b", "c"]
      (fun p c (_ : Option Unit) => chainEnvC5 p c none) none
      = (.error err,
        ((["a", "b", "c"].take 3).map fun d => (d, Command.add))
          ++ (["a", "b", "c"].take 3).map fun d => (d, Command.del)) :=
  C5_rollback_order ["a", "b", "c"] (fun p c => chainEnvC5 p c none) 2 "c"
    (.io "boom") rfl
    (by
      intro i hi d hd
      match i, hi with
      | 0, _ => exact ⟨(), by cases hd; rfl⟩
      | 1, _ => exact ⟨(), by cases hd; rfl⟩)
    rfl

/-- A run whose every attempt fails performs all `rem` attempts, each
followed by the 50 ms sleep, and keeps the last attempt's error. -/
theorem trialRunFrom_all_fail (outcome : Nat → Option CniError) :
    ∀ (rem i : Nat) (le : Option CniError),
      (∀ j < rem, ∃ e, outcome (i + j) = some e) →
      trialRunFrom outcome rem i le
        = (if rem = 0 then le else outcome (i + (rem - 1)),
          failTrace rem i) := by
  intro rem
  induction rem with
  | zero => intro i le _; rfl
  | succ m ih =>
    intro i le h
    obtain ⟨e, he⟩ := h 0 (Nat.succ_pos _)
    have h' : ∀ j < m, ∃ e, outcome (i + 1 + j) = some e := fun j hj => by
      obtain ⟨e', he'⟩ := h (j + 1) (Nat.succ_lt_succ hj)
      exact ⟨e', by rw [show i + 1 + j = i + (j + 1) by omega]; exact he'⟩
    unfold trialRunFrom
    rw [show outcome i = some e from he]
    simp only [ih (i + 1) (some e) h']
    cases m with
    | zero =>
      simp [failTrace]
      exact he.symm
    | succ m' =>
      have hx : i + 1 + m' = i + (m' + 1) := by omega
      simp [hx, failTrace]

/-- A run whose first success is attempt `s` performs attempts up to
`s`, sleeping 50 ms after each of the `s` failures, and stops there. -/
theorem trialRunFrom_first_success (outcome : Nat → Option CniError) :
    ∀ (s rem i : Nat) (le : Option CniError),
      outcome (i + s) = none → s < rem →
      (∀ j < s, ∃ e, outcome (i + j) = some e) →
      trialRunFrom outcome rem i le
        = (if s = 0 then le else outcome (i + (s - 1)),
          failTrace s i ++ [.attempt (i + s)]) := by
  intro s
  induction s with
  | zero =>
    intro rem i le hok hlt _
    cases rem with
    | zero => omega
    | succ m =>
      unfold trialRunFrom
      rw [show i + 0 = i from rfl] at hok
      rw [hok]
      rfl
  | succ s' ih =>
    intro rem i le hok hlt hfail
    cases rem with
    | zero => omega
    | succ m =>
      obtain ⟨e, he⟩ := hfail 0 (Nat.succ_pos _)
      unfold trialRunFrom
      rw [show outcome i = some e from he]
      have hok' : outcome (i + 1 + s') = none := by
        rw [show i + 1 + s' = i + (s' + 1) by omega]
        exact hok
      have hfail' : ∀ j < s', ∃ e, outcome (i + 1 + j) = some e :=
        fun j hj => by
          obtain ⟨e', he'⟩ := hfail (j + 1) (Nat.succ_lt_succ hj)
          exact ⟨e', by rw [show i + 1 + j = i + (j + 1) by omega]; exact he'⟩
      simp only [ih m (i + 1) (some e) hok' (by omega) hfail']
      cases s' with
      | zero =>
        simp [failTrace]
        exact he.symm
      | succ s'' =>
        have hx : i + 1 + s'' = i + (s'' + 1) := by omega
        have hy : i + 1 + (s'' + 1) = i + (s'' + 1 + 1) := by omega
        simp [hx, hy, failTrace]

/-- **C9 counterexample.** In host-neigh, the retry budget and the jq
expression are read from the same `neigh` config key; setting it to the
number 5 does set the budget to 5, but then the expression extraction
fails with `Invalid field` before any directive runs, so the budget is
not configurable there. -/
theorem C9_counterexample :
    hostTries [("neigh", Json.num 5)] = 5
    ∧ hostNeighExpr [("neigh", Json.num 5)]
      = .error (.invalidField "neigh" "string" (Json.num 5)) :=
  ⟨rfl, rfl⟩

/-- **C9 (amended).** Each directive's netlink operation is retried
after a failure with a 50 ms sleep after every failed attempt, up to a
per-directive budget that defaults to 3. The budget is read from the
numeric `neigh` config key (in both plugins): values 1–10 are used
as-is, 0 and values 11–255 yield 10, anything else yields the default 3.
In host-routes this coexists with the `routing` expression and is
effectively configurable; in host-neigh the `neigh` key must be the jq
expression string, so every invocation that reaches its directives runs
with the default budget 3. -/
theorem C9_retry_budget :
    (∀ specific expr, hostNeighExpr specific = .ok expr →
      hostTries specific = 3)
    ∧ (∀ n : Nat, 1 ≤ n → n ≤ 10 →
      hostTries [("neigh", Json.num (Int.ofNat n))] = n)
    ∧ hostRoutesExpr [("neigh", Json.num 5), ("routing", Json.str ".r")]
      = .ok ".r"
    ∧ hostTries [] = 3
    ∧ hostTries [("neigh", Json.num 0)] = 10
    ∧ hostTries [("neigh", Json.num 11)] = 10
    ∧ hostTries [("neigh", Json.num 300)] = 3
    ∧ (∀ (outcome : Nat → Option CniError) (tries : Nat),
      ((∀ j < tries, ∃ e, outcome j = some e) →
        trialRun tries outcome
          = (if tries = 0 then none else outcome (tries - 1),
            failTrace tries 0))
      ∧ (∀ s < tries, outcome s = none →
        (∀ j < s, ∃ e, outcome j = some e) →
        trialRun tries outcome
          = (if s = 0 then none else outcome (s - 1),
            failTrace s 0 ++ [.attempt s]))) := by
  refine ⟨?_, ?_, rfl, rfl, rfl, rfl, rfl, ?_⟩
  · intro specific expr h
    unfold hostNeighExpr at h
    cases hj : jsonGet specific "neigh" with
    | none =>
      rw [hj] at h
      cases h
    | some v =>
      rw [hj] at h
      cases v <;> simp [Json.as_str] at h
      unfold hostTries
      rw [hj]
      rfl
  · intro n h1 h10
    have hfind : jsonGet [("neigh", Json.num (Int.ofNat n))] "neigh"
        = some (Json.num (Int.ofNat n)) := by
      simp [jsonGet]
    unfold hostTries
    rw [hfind]
    have hcond : ¬(n = 0 ∨ 10 < n) := by omega
    have h255 : n ≤ 255 := by omega
    simp [Json.as_u64, hcond, h255]
  · intro outcome tries
    constructor
    · intro h
      have h' : ∀ j < tries, ∃ e, outcome (0 + j) = some e := fun j hj => by
        rw [Nat.zero_add]
        exact h j hj
      rw [trialRun, trialRunFrom_all_fail outcome tries 0 none h']
      cases tries with
      | zero => rfl
      | succ m => simp [Nat.zero_add]
    · intro s hs hok hfail
      have hok' : outcome (0 + s) = none := by
        rw [Nat.zero_add]
        exact hok
      have hfail' : ∀ j < s, ∃ e, outcome (0 + j) = some e := fun j hj => by
        rw [Nat.zero_add]
        exact hfail j hj
      rw [trialRun, trialRunFrom_first_success outcome s tries 0 none hok'
        hs hfail']
      cases s with
      | zero => rfl
      | succ m => simp [Nat.zero_add]

/-- Witness for C9 (amended): default budget under a string `neigh` key,
a configured budget of 5, an all-fail run of 3 attempts with its sleeps,
and a run succeeding on the second attempt. -/
theorem C9_retry_budget_witness :
    hostTries [("neigh", Json.str ".x")] = 3
    ∧ hostTries [("neigh", Json.num 5)] = 5
    ∧ trialRun 3 (fun _ => some (.io "netlink down"))
      = (some (.io "netlink down"), failTrace 3 0)
    ∧ trialRun 3 (fun j => if j = 0 then some (.io "x") else none)
      = (some (.io "x"), failTrace 1 0 ++ [.attempt 1]) :=
  ⟨C9_retry_budget.1 [("neigh", Json.str ".x")] ".x" rfl,
    C9_retry_budget.2.1 5 (by decide) (by decide),
    (C9_retry_budget.2.2.2.2.2.2.2 (fun _ => some (.io "netlink down"))
      3).1 (fun j _ => ⟨.io "netlink down", rfl⟩),
    (C9_retry_budget.2.2.2.2.2.2.2
      (fun j => if j = 0 then some (.io "x") else none) 3).2 1
      (by decide) rfl
      (fun j hj => by
        match j, hj with
        | 0, _ => exact ⟨.io "x", rfl⟩)⟩

end CniPlugins
